import Mathlib

set_option maxHeartbeats 1600000
set_option maxRecDepth 4000

/-
Verification of the resume-generation pipeline in `generate_pdf_cv.py`.

The program is a single linear pipeline: load a YAML file into a nested
record tree, optionally enrich it with a fetched projects list, render a
fixed Jinja2 template over it, and write the result as a PDF.

The shallow embedding below models:
  * the record tree (`Yaml`) as produced by `yaml.safe_load`;
  * Jinja2 runtime values (`JValue`): either a concrete tree node or the
    default `jinja2.Undefined` (which prints as "", iterates as empty,
    is falsy, but raises `UndefinedError` on attribute or item access);
  * the template of `generate_pdf_cv.py` (the `TEMPLATE` string,
    rendered with default Jinja2 settings: no trim_blocks/lstrip_blocks,
    keep_trailing_newline = False) as an explicit string-producing
    function in the `Except PyErr` monad;
  * `load_data`, `generate_html`, `write_pdf` and `main`, with the file
    system, the YAML parser and the GitHub fetcher (external
    collaborator) abstracted as explicit parameters.
-/

/-- A node of the record tree produced by `yaml.safe_load`: Python
`None`, `bool`, `int`, `str`, `list` and `dict` (string keys, as in the
resume data file).  Floats and non-string keys do not occur in the
record trees in scope and are not modelled. -/
inductive Yaml where
  | null : Yaml
  | bool : Bool → Yaml
  | int : Int → Yaml
  | str : String → Yaml
  | list : List Yaml → Yaml
  | map : List (String × Yaml) → Yaml

/-- First-match association-list lookup, modelling Python `dict`
indexing (the YAML mappings in scope have unique keys). -/
def alookup : List (String × Yaml) → String → Option Yaml
  | [], _ => none
  | (k, v) :: rest, key => if k = key then some v else alookup rest key

/-- A Jinja2 runtime value: a concrete record-tree node, or the default
`jinja2.Undefined` produced by a failed name/attribute lookup. -/
inductive JValue where
  | undefined : JValue
  | defined : Yaml → JValue

/-- The Python/Jinja exceptions that the pipeline can raise, by class. -/
inductive PyErr where
  | undefinedError : PyErr
  | attributeError : PyErr
  | typeError : PyErr
  | fileNotFoundError : PyErr
deriving DecidableEq

/-- One character of Python `repr` of a string (minimal escaping:
backslash, quote, and common control characters; the data in scope is
plain text). -/
def reprEscapeChar (c : Char) : String :=
  if c = '\\' then "\\\\"
  else if c = '\x27' then "\\\x27"
  else if c = '\n' then "\\n"
  else if c = '\r' then "\\r"
  else if c = '\t' then "\\t"
  else String.singleton c

/-- Python `repr` escaping of a string body. -/
def reprEscape (s : String) : String :=
  String.join (s.data.map reprEscapeChar)

mutual

/-- Python `repr` of a record-tree node (used by `str` on containers).
Modelling note: Python switches to double quotes for strings containing
a single quote; the single-quote form is used uniformly here. -/
def pyRepr : Yaml → String
  | .null => "None"
  | .bool true => "True"
  | .bool false => "False"
  | .int n => toString n
  | .str s => "\x27" ++ reprEscape s ++ "\x27"
  | .list xs => "[" ++ String.intercalate ", " (pyReprList xs) ++ "]"
  | .map kvs => "\x7b" ++ String.intercalate ", " (pyReprPairs kvs) ++ "\x7d"

/-- `repr` of the elements of a list. -/
def pyReprList : List Yaml → List String
  | [] => []
  | y :: ys => pyRepr y :: pyReprList ys

/-- `repr` of the entries of a dict. -/
def pyReprPairs : List (String × Yaml) → List String
  | [] => []
  | (k, v) :: rest =>
      ("\x27" ++ reprEscape k ++ "\x27: " ++ pyRepr v) :: pyReprPairs rest

end

/-- Python `str()` of a record-tree node (`None` prints as "None",
booleans capitalised, containers via `repr`). -/
def pyStr : Yaml → String
  | .null => "None"
  | .bool true => "True"
  | .bool false => "False"
  | .int n => toString n
  | .str s => s
  | .list xs => pyRepr (.list xs)
  | .map kvs => pyRepr (.map kvs)

/-- Python truthiness of a record-tree node. -/
def yTruthy : Yaml → Bool
  | .null => false
  | .bool b => b
  | .int n => n != 0
  | .str s => !s.isEmpty
  | .list xs => !xs.isEmpty
  | .map kvs => !kvs.isEmpty

/-- Jinja2 `{{ ... }}` output conversion (`str`); `Undefined` prints as
the empty string. -/
def jinjaStr : JValue → String
  | .undefined => ""
  | .defined y => pyStr y

/-- Jinja2 truthiness; `Undefined.__bool__` is `False`. -/
def jtruthy : JValue → Bool
  | .undefined => false
  | .defined y => yTruthy y

/-- Template-context name resolution for `Template.render(**data)`: a
missing top-level key resolves to `Undefined`. -/
def resolve (ctx : List (String × Yaml)) (name : String) : JValue :=
  match alookup ctx name with
  | some y => .defined y
  | none => .undefined

/-- Jinja2 `environment.getattr` (the compilation of `a.b`): attribute
access on `Undefined` raises `UndefinedError`; on a dict it falls back
to item lookup, returning `Undefined` when the key is absent; on any
other value both accesses fail and `Undefined` is returned.  (The Python
`getattr` fallback can find builtin methods, e.g. `"s".title`; no key
used by the template collides with a method of the non-dict values
considered, so that branch is modelled as absent.) -/
def jgetattr : JValue → String → Except PyErr JValue
  | .undefined, _ => .error .undefinedError
  | .defined (.map kvs), key =>
      match alookup kvs key with
      | some v => .ok (.defined v)
      | none => .ok .undefined
  | .defined _, _ => .ok .undefined

/-- Jinja2 `{% for %}` iteration: `Undefined` iterates as empty, lists
yield their elements, strings their characters, dicts their keys;
`None`, booleans and ints are not iterable (`TypeError`). -/
def jiterate : JValue → Except PyErr (List JValue)
  | .undefined => .ok []
  | .defined (.list xs) => .ok (xs.map JValue.defined)
  | .defined (.str s) =>
      .ok (s.data.map (fun c => JValue.defined (.str (String.singleton c))))
  | .defined (.map kvs) =>
      .ok (kvs.map (fun kv => JValue.defined (.str kv.1)))
  | .defined _ => .error .typeError

/-- Jinja2 `environment.getitem` applied to the slice `[:n]`:
subscripting `Undefined` raises `UndefinedError`; lists and strings
slice to their first `n` items; for any other value the `TypeError`
is caught by `getitem` and `Undefined` is returned. -/
def jslice : JValue → Nat → Except PyErr JValue
  | .undefined, _ => .error .undefinedError
  | .defined (.list xs), n => .ok (.defined (.list (xs.take n)))
  | .defined (.str s), n => .ok (.defined (.str (String.mk (s.data.take n))))
  | .defined _, _ => .ok .undefined

/-- Jinja2 `length` filter (`len`): `Undefined` has length 0; `None`,
booleans and ints raise `TypeError`. -/
def jlength : JValue → Except PyErr Nat
  | .undefined => .ok 0
  | .defined (.list xs) => .ok xs.length
  | .defined (.str s) => .ok s.length
  | .defined (.map kvs) => .ok kvs.length
  | .defined _ => .error .typeError

/-- Jinja2 `join` filter: iterate the value and join the stringified
items with the separator. -/
def jjoin (v : JValue) (sep : String) : Except PyErr String := do
  let items ← jiterate v
  pure (String.intercalate sep (items.map jinjaStr))

/-- A word-beginning separator of Jinja2's `title` filter: the regex
class `[-\s({\[<]` (ASCII whitespace modelled for `\s`). -/
def isTitleSep (c : Char) : Bool :=
  c = '-' || c = ' ' || c = '\t' || c = '\n' || c = '\r' || c = '\x0b' ||
  c = '\x0c' || c = '(' || c = Char.ofNat 123 || c = '[' || c = '<'

/-- Character-wise core of Jinja2's `title` filter: a character at the
start or right after a separator is uppercased, every other character
is lowercased, separators pass through. -/
def jinjaTitleGo : Bool → List Char → List Char
  | _, [] => []
  | atStart, c :: cs =>
      if isTitleSep c then c :: jinjaTitleGo true cs
      else (if atStart then c.toUpper else c.toLower) :: jinjaTitleGo false cs

/-- Jinja2's `title` filter (`do_title`), ASCII case mapping. -/
def jinjaTitle (s : String) : String :=
  String.mk (jinjaTitleGo true s.data)

/-
The TEMPLATE string of generate_pdf_cv.py, split at its expression and
control tags.  Default Jinja2 whitespace handling is modelled exactly:
tags are deleted, all surrounding text (including the indentation before
a tag and the newline after it) is kept, and the single trailing newline
of the template is stripped (keep_trailing_newline = False).
-/

/-- The CSS block of the template head (lines 21-34 of the source). -/
def cssBlock : String :=
  "    @page \x7b size: A4; margin: 2cm; \x7d\n" ++
  "    body \x7b font-family: Arial, Helvetica, sans-serif; color: #222; font-size: 11pt; \x7d\n" ++
  "    .header \x7b text-align: center; border-bottom: 3px solid #4ecdc4; padding-bottom: 10px; margin-bottom: 12px; \x7d\n" ++
  "    h1 \x7b margin: 6px 0; font-size: 20pt; \x7d\n" ++
  "    .contact \x7b font-size: 9pt; color: #555; margin-top: 6px; \x7d\n" ++
  "    .section \x7b margin-top: 14px; \x7d\n" ++
  "    .section-title \x7b font-weight: bold; color: #2c3e50; margin-bottom: 6px; font-size: 12pt; \x7d\n" ++
  "    .job \x7b margin-bottom: 8px; \x7d\n" ++
  "    .job-title \x7b font-weight: bold; \x7d\n" ++
  "    .company \x7b color: #4ecdc4; font-weight: 600; \x7d\n" ++
  "    .meta \x7b color: #777; font-size: 9pt; margin-bottom: 6px; \x7d\n" ++
  "    ul \x7b margin: 4px 0 8px 18px; \x7d\n" ++
  "    .skills \x7b display: block; font-size: 9pt; color: #333; \x7d\n" ++
  "    .learning-tag \x7b display:inline-block; background:#ecf8f6; color:#0e7c6d; padding:2px 6px; border-radius:3px; margin:2px; font-size:9pt; \x7d\n"

/-- Template text from the start up to the first `personal_info.name`. -/
def strA : String :=
  "\n<!doctype html>\n<html>\n<head>\n  <meta charset=\"utf-8\">\n  <title>"

/-- Template text between the title name and the header name. -/
def strB : String :=
  " - CV</title>\n  <style>\n" ++ cssBlock ++
  "  </style>\n</head>\n<body>\n  <div class=\"header\">\n    <h1>"

/-- Template text between the header name and the contact line. -/
def strC : String := "</h1>\n    <div class=\"contact\">"

/-- Template text between the contact line and `about.summary`. -/
def strD : String :=
  "</div>\n  </div>\n\n  <div class=\"section\">\n" ++
  "    <div class=\"section-title\">Professional Summary</div>\n" ++
  "    <div class=\"summary\">"

/-- Template text between the summary and the corporate-experience loop. -/
def strE : String :=
  "</div>\n  </div>\n\n  <div class=\"section\">\n" ++
  "    <div class=\"section-title\">Professional Experience</div>\n    "

/-- Template text between the corporate loop and the other-experience
loop (closes the experience section, opens Education & Other). -/
def strF : String :=
  "\n  </div>\n\n  <div class=\"section\">\n" ++
  "    <div class=\"section-title\">Education & Other Experience</div>\n    "

/-- Template text between the other-experience loop and the projects
conditional. -/
def strG : String := "\n  </div>\n\n  "

/-- Template text from the end of the projects conditional to the end
of the template (final newline stripped by Jinja2). -/
def strH : String := "\n\n</body>\n</html>"

/-- One rendered `<li>` of the responsibilities loop body (template
lines 58-60). -/
def respItemHtml (r : JValue) : String :=
  "\n            <li>" ++ jinjaStr r ++ "</li>\n            "

/-- The `{% if position.responsibilities %}` block of a position
(template lines 56-62). -/
def respFragment (position : JValue) : Except PyErr String := do
  let resp ← jgetattr position "responsibilities"
  if jtruthy resp then do
    let sliced ← jslice resp 6
    let items ← jiterate sliced
    pure ("\n          <ul>\n            " ++
      String.join (items.map respItemHtml) ++
      "\n          </ul>\n          ")
  else
    pure ""

/-- The `{% if position.daily_stack %}` block of a position (template
lines 63-65). -/
def stackFragment (position : JValue) : Except PyErr String := do
  let stack ← jgetattr position "daily_stack"
  if jtruthy stack then do
    let sliced ← jslice stack 10
    let joined ← jjoin sliced ", "
    pure ("\n          <div class=\"skills\"><strong>Technologies:</strong> " ++
      joined ++ "</div>\n          ")
  else
    pure ""

/-- The body of the inner `{% for position in company.positions %}`
loop (template lines 51-67). -/
def renderPosition (company position : JValue) : Except PyErr String := do
  let title ← jgetattr position "title"
  let cname ← jgetattr company "company"
  let dur ← jgetattr position "duration"
  let loc ← jgetattr position "location"
  let typ ← jgetattr position "type"
  let respF ← respFragment position
  let stackF ← stackFragment position
  pure ("\n        <div class=\"job\">\n          <div class=\"job-title\">" ++
    jinjaStr title ++
    "</div>\n          <div class=\"company\">" ++ jinjaStr cname ++
    "</div>\n          <div class=\"meta\">" ++ jinjaStr dur ++ " | " ++
    jinjaStr loc ++ " | " ++ jinjaStr typ ++
    "</div>\n          " ++ respF ++ "\n          " ++ stackF ++
    "\n        </div>\n      ")

/-- The body of the outer `{% for company in experience.corporate %}`
loop (template lines 50-68). -/
def renderCompany (company : JValue) : Except PyErr String := do
  let positions ← jgetattr company "positions"
  let posList ← jiterate positions
  let parts ← posList.mapM (renderPosition company)
  pure ("\n      " ++ String.join parts ++ "\n    ")

/-- One rendered learning tag of the key-learnings loop body (template
lines 80-82). -/
def klItemHtml (k : JValue) : String :=
  "\n            <span class=\"learning-tag\">" ++ jinjaStr k ++
  "</span>\n          "

/-- The `{% if item.key_learnings %}` block of an other-experience item
(template lines 78-84). -/
def klFragment (item : JValue) : Except PyErr String := do
  let kl ← jgetattr item "key_learnings"
  if jtruthy kl then do
    let items ← jiterate kl
    pure ("\n        <div>\n          " ++
      String.join (items.map klItemHtml) ++
      "\n        </div>\n        ")
  else
    pure ""

/-- The body of the `{% for item in experience.other %}` loop (template
lines 73-86). -/
def renderOtherItem (item : JValue) : Except PyErr String := do
  let title ← jgetattr item "title"
  let org ← jgetattr item "organization"
  let dur ← jgetattr item "duration"
  let typ ← jgetattr item "type"
  let klF ← klFragment item
  pure ("\n      <div class=\"job\">\n        <div class=\"job-title\">" ++
    jinjaStr title ++
    "</div>\n        <div class=\"company\">" ++ jinjaStr org ++
    "</div>\n        <div class=\"meta\">" ++ jinjaStr dur ++ " | " ++
    jinjaStr typ ++ "</div>\n        " ++ klF ++ "\n      </div>\n    ")

/-- One rendered topic tag of the topics loop body (template lines
100-102). -/
def topicItemHtml (t : JValue) : String :=
  "\n            <span class=\"learning-tag\">" ++ jinjaStr t ++
  "</span>\n          "

/-- The `{% if project.topics %}` block of a project (template lines
98-104). -/
def topicsFragment (project : JValue) : Except PyErr String := do
  let topics ← jgetattr project "topics"
  if jtruthy topics then do
    let sliced ← jslice topics 5
    let items ← jiterate sliced
    pure ("\n        <div style=\"margin-top: 6px;\">\n          " ++
      String.join (items.map topicItemHtml) ++
      "\n        </div>\n        ")
  else
    pure ""

/-- The body of the `{% for project in projects[:4] %}` loop (template
lines 92-106); `project.name` goes through the `title` filter. -/
def renderProject (project : JValue) : Except PyErr String := do
  let name ← jgetattr project "name"
  let lang ← jgetattr project "language"
  let stars ← jgetattr project "stars"
  let url ← jgetattr project "url"
  let desc ← jgetattr project "description"
  let topicsF ← topicsFragment project
  pure ("\n      <div class=\"job\">\n        <div class=\"job-title\">" ++
    jinjaTitle (jinjaStr name) ++
    "</div>\n        <div class=\"company\">" ++ jinjaStr lang ++
    " | ⭐ " ++ jinjaStr stars ++
    " stars</div>\n        <div class=\"meta\">" ++ jinjaStr url ++
    "</div>\n        <div style=\"margin-top: 4px;\">" ++ jinjaStr desc ++
    "</div>\n        " ++ topicsF ++ "\n      </div>\n    ")

/-- The `{% if projects and projects|length > 0 %}` section (template
lines 89-108).  `and` short-circuits, so `length` is only applied when
`projects` is truthy. -/
def projectsSection (projects : JValue) : Except PyErr String := do
  if jtruthy projects then do
    let n ← jlength projects
    if n > 0 then do
      let sliced ← jslice projects 4
      let items ← jiterate sliced
      let parts ← items.mapM renderProject
      pure ("\n  <div class=\"section\">\n    <div class=\"section-title\">Featured Projects</div>\n    " ++
        String.join parts ++ "\n  </div>\n  ")
    else
      pure ""
  else
    pure ""

/-- The full TEMPLATE, rendered over the splatted record tree; errors
model the Jinja2 exceptions in evaluation order. -/
def renderTemplate (ctx : List (String × Yaml)) : Except PyErr String := do
  let personal := resolve ctx "personal_info"
  let name ← jgetattr personal "name"
  let email ← jgetattr personal "email"
  let phone ← jgetattr personal "phone"
  let loc ← jgetattr personal "location"
  let about := resolve ctx "about"
  let summary ← jgetattr about "summary"
  let experience := resolve ctx "experience"
  let corporate ← jgetattr experience "corporate"
  let companies ← jiterate corporate
  let corpParts ← companies.mapM renderCompany
  let other ← jgetattr experience "other"
  let otherItems ← jiterate other
  let otherParts ← otherItems.mapM renderOtherItem
  let projects := resolve ctx "projects"
  let projF ← projectsSection projects
  pure (strA ++ jinjaStr name ++ strB ++ jinjaStr name ++ strC ++
    jinjaStr email ++ " | " ++ jinjaStr phone ++ " | " ++ jinjaStr loc ++
    strD ++ jinjaStr summary ++ strE ++ String.join corpParts ++ strF ++
    String.join otherParts ++ strG ++ projF ++ strH)

/-
The pipeline around the template: load_data, generate_html, write_pdf
and main.  The file system, YAML parser and GitHub fetcher are explicit
parameters (they are I/O or external collaborators).
-/

/-- The outcome of `open(path)` / `f.read()` for the input file:
missing (`FileNotFoundError`), unreadable (`OSError`), or its text. -/
inductive FileRead where
  | missing : FileRead
  | unreadable : FileRead
  | content : String → FileRead

/-- The parse failure of `yaml.safe_load` (`yaml.YAMLError`), abstract. -/
inductive YamlErr where
  | syntaxError : YamlErr
deriving DecidableEq

/-- The spec taxonomy for a failed load: the exceptions `load_data`
lets escape (`FileNotFoundError`/`OSError` from `open`, `YAMLError`
from `yaml.safe_load`). -/
inductive DataLoadError where
  | fileMissing : DataLoadError
  | unreadable : DataLoadError
  | notParseable : YamlErr → DataLoadError
deriving DecidableEq

/-- `load_data` (source lines 115-117): open the file and parse it with
`yaml.safe_load`; any failure escapes, a successful parse is returned
as the record tree. -/
def load_data (file : FileRead) (parse : String → Except YamlErr Yaml) :
    Except DataLoadError Yaml :=
  match file with
  | .missing => .error .fileMissing
  | .unreadable => .error .unreadable
  | .content s =>
      match parse s with
      | .error e => .error (.notParseable e)
      | .ok y => .ok y

/-- `generate_html` (source lines 120-122): `Template(TEMPLATE).render(**data)`.
Splatting a non-mapping raises `TypeError`; a mapping is rendered. -/
def generate_html (data : Yaml) : Except PyErr String :=
  match data with
  | .map kvs => renderTemplate kvs
  | _ => .error .typeError

/-- `os.path.dirname` (POSIX): keep everything up to the last slash,
then strip trailing slashes unless the head is all slashes. -/
def dirname (p : String) : String :=
  let rev := p.data.reverse
  let after := rev.dropWhile (fun c => c ≠ '/')
  if after.isEmpty then ""
  else if after.all (fun c => c = '/') then String.mk after.reverse
  else String.mk ((after.dropWhile (fun c => c = '/')).reverse)

/-- `os.makedirs(name, exist_ok=True)` over an abstract set of existing
directories: `os.makedirs("")` raises `FileNotFoundError`; an existing
directory is accepted silently (exist_ok); otherwise the directory is
created.  (Intermediate ancestors, also created by `makedirs`, are not
tracked separately: no claim depends on them.) -/
def makedirs (fs : List String) (name : String) : Except PyErr (List String) :=
  if name = "" then .error .fileNotFoundError
  else if name ∈ fs then .ok fs
  else .ok (name :: fs)

/-- `write_pdf` (source lines 125-127): ensure the parent directory of
`out_path` exists, then convert and persist.  The WeasyPrint conversion
is external; the writer is modelled as persisting a document derived
from the markup at `out_path`, returning the new directory set and the
written (path, markup) pair. -/
def write_pdf (fs : List String) (html_str : String) (out_path : String) :
    Except PyErr (List String × String × String) := do
  let fs2 ← makedirs fs (dirname out_path)
  pure (fs2, out_path, html_str)

/-- Python `dict.get(key, default)`; calling `.get` on a non-dict
raises `AttributeError`. -/
def pyGetD (v : Yaml) (key : String) (dflt : Yaml) : Except PyErr Yaml :=
  match v with
  | .map kvs => .ok ((alookup kvs key).getD dflt)
  | _ => .error .attributeError

/-- Python `len` of a record-tree node (`TypeError` on `None`, booleans
and ints). -/
def pyLen (v : Yaml) : Except PyErr Nat :=
  match v with
  | .list xs => .ok xs.length
  | .str s => .ok s.length
  | .map kvs => .ok kvs.length
  | _ => .error .typeError

/-- Python `data[key] = val` on a dict: replace the value of the key in
place, or append the binding.  (`main` only assigns into the dict whose
`.get` already succeeded, so the non-dict case is unreachable there and
left as the identity.) -/
def setKey : List (String × Yaml) → String → Yaml → List (String × Yaml)
  | [], key, val => [(key, val)]
  | (k, v) :: rest, key, val =>
      if k = key then (key, val) :: rest else (k, v) :: setKey rest key val

/-- `data["projects"] = projects` of `main` (source line 139). -/
def dictSet (v : Yaml) (key : String) (val : Yaml) : Yaml :=
  match v with
  | .map kvs => .map (setKey kvs key val)
  | other => other

/-- The enrichment condition of `main` (source lines 134-135):
`github_url and (not data.get("projects") or len(data.get("projects", [])) == 0)`,
with Python evaluation order and short-circuiting. -/
def enrichCond (data : Yaml) : Except PyErr Bool := do
  let pi0 ← pyGetD data "personal_info" (.map [])
  let social ← pyGetD pi0 "social" (.map [])
  let github ← pyGetD social "github" .null
  if yTruthy github then do
    let projs ← pyGetD data "projects" .null
    if !yTruthy projs then
      pure true
    else do
      let projs2 ← pyGetD data "projects" (.list [])
      let n ← pyLen projs2
      pure (n == 0)
  else
    pure false

/-- The enrichment step of `main` (source lines 133-144): when the
condition holds, call the fetcher once with the github value and the
optional token, and attach the result under `projects`; the second
component counts the fetch calls. -/
def enrichStep (data : Yaml) (fetch : Yaml → Option String → List Yaml)
    (token : Option String) : Except PyErr (Yaml × Nat) := do
  let cond ← enrichCond data
  if cond then do
    let pi0 ← pyGetD data "personal_info" (.map [])
    let social ← pyGetD pi0 "social" (.map [])
    let github ← pyGetD social "github" .null
    pure (dictSet data "projects" (.list (fetch github token)), 1)
  else
    pure (data, 0)

/-- A failure of a `main` run, tagged by the step that raised it. -/
inductive MainErr where
  | load : DataLoadError → MainErr
  | enrich : PyErr → MainErr
  | render : PyErr → MainErr
  | write : PyErr → MainErr
deriving DecidableEq

/-- The successful outcome of a `main` run: the record tree as rendered,
the markup, the directory set after the write, and the written
(path, document) pair. -/
structure MainOk where
  dataAfter : Yaml
  html : String
  fsAfter : List String
  outPath : String
  document : String

/-- `main` (source lines 130-148): load, conditionally enrich, render,
write to `html/cv.pdf`.  The first component counts the enrichment
(fetch) calls of the run; the second is the run outcome, failing with
the first raised exception. -/
def mainModel (file : FileRead) (parse : String → Except YamlErr Yaml)
    (fetch : Yaml → Option String → List Yaml) (token : Option String)
    (fs : List String) : Nat × Except MainErr MainOk :=
  match load_data file parse with
  | .error e => (0, .error (.load e))
  | .ok data =>
      match enrichStep data fetch token with
      | .error e => (0, .error (.enrich e))
      | .ok (data2, calls) =>
          (calls,
            match generate_html data2 with
            | .error e => .error (.render e)
            | .ok html =>
                match write_pdf fs html "html/cv.pdf" with
                | .error e => .error (.write e)
                | .ok (fs2, p, doc) =>
                    .ok ⟨data2, html, fs2, p, doc⟩)

/-
Helper lemmas: computing with the Except monad and the Jinja fragments.
-/

/-- Bind on a successful Except computes the continuation. -/
@[simp] theorem ok_bind {ε α β : Type} (a : α) (f : α → Except ε β) :
    (Except.ok a >>= f : Except ε β) = f a := rfl

/-- Bind on a failed Except propagates the error. -/
@[simp] theorem error_bind {ε α β : Type} (e : ε) (f : α → Except ε β) :
    (Except.error e >>= f : Except ε β) = Except.error e := rfl

/-- Pure in Except is ok. -/
@[simp] theorem pure_eq_ok {ε α : Type} (a : α) : (pure a : Except ε α) = .ok a := rfl

/-- Inversion of a successful bind. -/
theorem bind_eq_ok {ε α β : Type} {e : Except ε α} {f : α → Except ε β} {c : β} :
    e >>= f = Except.ok c ↔ ∃ a, e = .ok a ∧ f a = .ok c := by
  cases e <;> simp

/-- The value of Jinja attribute access on a defined node. -/
def attrOf (y : Yaml) (key : String) : JValue :=
  match y with
  | .map kvs =>
      match alookup kvs key with
      | some v => .defined v
      | none => .undefined
  | _ => .undefined

/-- Attribute access on a defined node never raises and computes `attrOf`. -/
@[simp] theorem jgetattr_defined (y : Yaml) (key : String) :
    jgetattr (.defined y) key = .ok (attrOf y key) := by
  cases y <;> try rfl
  rename_i kvs
  show jgetattr (.defined (.map kvs)) key = _
  cases h : alookup kvs key <;> simp [jgetattr, attrOf, h]

@[simp] theorem jtruthy_defined (y : Yaml) : jtruthy (.defined y) = yTruthy y := rfl

@[simp] theorem jtruthy_undef : jtruthy .undefined = false := rfl

@[simp] theorem jinjaStr_defined (y : Yaml) : jinjaStr (.defined y) = pyStr y := rfl

@[simp] theorem jinjaStr_undef : jinjaStr .undefined = "" := rfl

/-- The items produced by slicing a defined node to `n` and iterating. -/
def sliceItems (z : Yaml) (n : Nat) : List JValue :=
  match z with
  | .list xs => (xs.take n).map JValue.defined
  | .str s => (s.data.take n).map (fun c => JValue.defined (.str (String.singleton c)))
  | _ => []

/-- Slicing a defined node and iterating never raises. -/
theorem jslice_iterate (z : Yaml) (n : Nat) :
    (jslice (.defined z) n >>= jiterate) = .ok (sliceItems z n) := by
  cases z <;> simp [jslice, jiterate, sliceItems]

/-- The respFragment of a defined position never raises. -/
theorem respFragment_ok (y : Yaml) : ∃ s, respFragment (.defined y) = .ok s := by
  unfold respFragment
  simp only [jgetattr_defined, ok_bind]
  cases h : attrOf y "responsibilities" with
  | undefined => simp
  | defined z =>
      cases hz : jtruthy (.defined z)
      · simp [hz]
      · have := jslice_iterate z 6
        cases hs : jslice (.defined z) 6 with
        | error e => rw [hs] at this; simp at this
        | ok v =>
            rw [hs] at this
            simp at this
            simp [hz, hs, this]

/-- The stackFragment of a defined position never raises. -/
theorem stackFragment_ok (y : Yaml) : ∃ s, stackFragment (.defined y) = .ok s := by
  unfold stackFragment
  simp only [jgetattr_defined, ok_bind]
  cases h : attrOf y "daily_stack" with
  | undefined => simp
  | defined z =>
      cases hz : jtruthy (.defined z)
      · simp [hz]
      · have := jslice_iterate z 10
        cases hs : jslice (.defined z) 10 with
        | error e => rw [hs] at this; simp at this
        | ok v =>
            rw [hs] at this
            simp at this
            simp [hz, hs, jjoin, this]

/-- The topicsFragment of a defined project never raises. -/
theorem topicsFragment_ok (y : Yaml) : ∃ s, topicsFragment (.defined y) = .ok s := by
  unfold topicsFragment
  simp only [jgetattr_defined, ok_bind]
  cases h : attrOf y "topics" with
  | undefined => simp
  | defined z =>
      cases hz : jtruthy (.defined z)
      · simp [hz]
      · have := jslice_iterate z 5
        cases hs : jslice (.defined z) 5 with
        | error e => rw [hs] at this; simp at this
        | ok v =>
            rw [hs] at this
            simp at this
            simp [hz, hs, this]

/-- Rendering a position with defined company and position never raises. -/
theorem renderPosition_ok (c y : Yaml) :
    ∃ s, renderPosition (.defined c) (.defined y) = .ok s := by
  obtain ⟨r, hr⟩ := respFragment_ok y
  obtain ⟨t, ht⟩ := stackFragment_ok y
  unfold renderPosition
  simp [hr, ht]

/-- Rendering a project over any defined node never raises. -/
theorem renderProject_ok (y : Yaml) : ∃ s, renderProject (.defined y) = .ok s := by
  obtain ⟨t, ht⟩ := topicsFragment_ok y
  unfold renderProject
  simp [ht]

/-- mapM in Except succeeds when every element does. -/
theorem mapM_ok {ε α β : Type} {f : α → Except ε β} :
    ∀ {l : List α}, (∀ a ∈ l, ∃ b, f a = .ok b) → ∃ bs, l.mapM f = .ok bs := by
  intro l
  induction l with
  | nil => intro _; exact ⟨[], rfl⟩
  | cons a l ih =>
      intro h
      obtain ⟨b, hb⟩ := h a (by simp)
      obtain ⟨bs, hbs⟩ := ih (fun x hx => h x (by simp [hx]))
      exact ⟨b :: bs, by rw [List.mapM_cons, hb, hbs]; rfl⟩

/-- String concatenation is associative. -/
theorem string_append_assoc (a b c : String) : a ++ b ++ c = a ++ (b ++ c) := by
  cases a with | mk la =>
  cases b with | mk lb =>
  cases c with | mk lc =>
  show String.mk (la ++ lb ++ lc) = String.mk (la ++ (lb ++ lc))
  rw [List.append_assoc]

/-- Exact output of the responsibilities block when the position has a
non-empty responsibilities list: the first 6 items, in order. -/
theorem respFragment_cons (y a : Yaml) (as : List Yaml)
    (h : attrOf y "responsibilities" = .defined (.list (a :: as))) :
    respFragment (.defined y) = .ok ("\n          <ul>\n            " ++
      String.join (((a :: as).take 6).map (fun r => respItemHtml (.defined r))) ++
      "\n          </ul>\n          ") := by
  unfold respFragment
  simp [h, jslice, jiterate, yTruthy, List.map_map, Function.comp_def]

/-- Exact output of the technologies block when the position has a
non-empty daily_stack list: the first 10 items, joined. -/
theorem stackFragment_cons (y a : Yaml) (as : List Yaml)
    (h : attrOf y "daily_stack" = .defined (.list (a :: as))) :
    stackFragment (.defined y) = .ok
      ("\n          <div class=\"skills\"><strong>Technologies:</strong> " ++
       String.intercalate ", " (((a :: as).take 10).map pyStr) ++
       "</div>\n          ") := by
  unfold stackFragment
  simp [h, jslice, jiterate, jjoin, yTruthy, List.map_map, Function.comp_def, jinjaStr]

/-- Exact output of the topics block when the project has a non-empty
topics list: the first 5 items, in order. -/
theorem topicsFragment_cons (y a : Yaml) (as : List Yaml)
    (h : attrOf y "topics" = .defined (.list (a :: as))) :
    topicsFragment (.defined y) = .ok
      ("\n        <div style=\"margin-top: 6px;\">\n          " ++
       String.join (((a :: as).take 5).map (fun t => topicItemHtml (.defined t))) ++
       "\n        </div>\n        ") := by
  unfold topicsFragment
  simp [h, jslice, jiterate, yTruthy, List.map_map, Function.comp_def]

/-- Exact output of a position once its two conditional fragments are
known. -/
theorem renderPosition_eq (c y : Yaml) (f s : String)
    (hf : respFragment (.defined y) = .ok f)
    (hs : stackFragment (.defined y) = .ok s) :
    renderPosition (.defined c) (.defined y) = .ok
      ("\n        <div class=\"job\">\n          <div class=\"job-title\">" ++
       jinjaStr (attrOf y "title") ++
       "</div>\n          <div class=\"company\">" ++ jinjaStr (attrOf c "company") ++
       "</div>\n          <div class=\"meta\">" ++ jinjaStr (attrOf y "duration") ++
       " | " ++ jinjaStr (attrOf y "location") ++ " | " ++ jinjaStr (attrOf y "type") ++
       "</div>\n          " ++ f ++ "\n          " ++ s ++
       "\n        </div>\n      ") := by
  unfold renderPosition
  simp [hf, hs]

/-- Exact output of a project once its topics fragment is known: the
name is title-cased, every other field is rendered verbatim by `jinjaStr`. -/
theorem renderProject_eq (y : Yaml) (t : String)
    (ht : topicsFragment (.defined y) = .ok t) :
    renderProject (.defined y) = .ok
      ("\n      <div class=\"job\">\n        <div class=\"job-title\">" ++
       jinjaTitle (jinjaStr (attrOf y "name")) ++
       "</div>\n        <div class=\"company\">" ++ jinjaStr (attrOf y "language") ++
       " | ⭐ " ++ jinjaStr (attrOf y "stars") ++
       " stars</div>\n        <div class=\"meta\">" ++ jinjaStr (attrOf y "url") ++
       "</div>\n        <div style=\"margin-top: 4px;\">" ++
       jinjaStr (attrOf y "description") ++
       "</div>\n        " ++ t ++ "\n      </div>\n    ") := by
  unfold renderProject
  simp [ht]

/-- Exact output of an other-experience item once its key-learnings
fragment is known. -/
theorem renderOtherItem_eq (y : Yaml) (k : String)
    (hk : klFragment (.defined y) = .ok k) :
    renderOtherItem (.defined y) = .ok
      ("\n      <div class=\"job\">\n        <div class=\"job-title\">" ++
       jinjaStr (attrOf y "title") ++
       "</div>\n        <div class=\"company\">" ++ jinjaStr (attrOf y "organization") ++
       "</div>\n        <div class=\"meta\">" ++ jinjaStr (attrOf y "duration") ++
       " | " ++ jinjaStr (attrOf y "type") ++ "</div>\n        " ++ k ++
       "\n      </div>\n    ") := by
  unfold renderOtherItem
  simp [hk]

/-- Exact output of the projects section on a non-empty list: the first
4 projects are rendered, in order. -/
theorem projectsSection_cons (a : Yaml) (as : List Yaml) (parts : List String)
    (hparts : (((a :: as).take 4).map JValue.defined).mapM renderProject = .ok parts) :
    projectsSection (.defined (.list (a :: as))) = .ok
      ("\n  <div class=\"section\">\n    <div class=\"section-title\">Featured Projects</div>\n    " ++
       String.join parts ++ "\n  </div>\n  ") := by
  unfold projectsSection
  rw [show jtruthy (.defined (.list (a :: as))) = true by simp [yTruthy]]
  rw [if_pos rfl]
  rw [show jlength (.defined (.list (a :: as))) = .ok (a :: as).length from rfl, ok_bind]
  rw [if_pos (by simp)]
  rw [show jslice (.defined (.list (a :: as))) 4 =
    .ok (.defined (.list ((a :: as).take 4))) from rfl, ok_bind]
  rw [show jiterate (.defined (.list ((a :: as).take 4))) =
    .ok (((a :: as).take 4).map JValue.defined) from rfl, ok_bind]
  rw [hparts, ok_bind]
  rfl

/-- The projects section of an empty list is empty. -/
theorem projectsSection_nil :
    projectsSection (.defined (.list [])) = .ok "" := by
  unfold projectsSection
  simp [jlength, yTruthy]

/-- The projects section of a missing `projects` key is empty. -/
theorem projectsSection_undef : projectsSection .undefined = .ok "" := by
  unfold projectsSection
  simp

/-- C1: for every record tree, rendering applies the fixed deterministic
truncation limits, keeping the first items in existing order: at most 6
responsibilities per position (`responsibilities[:6]`), at most 10
technologies per position (`daily_stack[:10]`), at most 4 projects
overall (`projects[:4]`), at most 5 topics per project (`topics[:5]`);
with more items than the limit, the output contains exactly the first
`limit` items of the original list, in original order (`List.take`). -/
theorem C1_truncation_limits :
    (∀ (c y : Yaml) (rs : List Yaml),
        attrOf y "responsibilities" = .defined (.list rs) → rs ≠ [] →
        ∃ pre post, renderPosition (.defined c) (.defined y) =
          .ok (pre ++ String.join ((rs.take 6).map (fun r => respItemHtml (.defined r))) ++ post))
    ∧
    (∀ (c y : Yaml) (ts : List Yaml),
        attrOf y "daily_stack" = .defined (.list ts) → ts ≠ [] →
        ∃ pre post, renderPosition (.defined c) (.defined y) =
          .ok (pre ++ String.intercalate ", " ((ts.take 10).map pyStr) ++ post))
    ∧
    (∀ (ps : List Yaml), ps ≠ [] →
        ∃ parts pre post,
          ((ps.take 4).map JValue.defined).mapM renderProject = .ok parts ∧
          projectsSection (.defined (.list ps)) = .ok (pre ++ String.join parts ++ post))
    ∧
    (∀ (y : Yaml) (tps : List Yaml),
        attrOf y "topics" = .defined (.list tps) → tps ≠ [] →
        ∃ pre post, renderProject (.defined y) =
          .ok (pre ++ String.join ((tps.take 5).map (fun t => topicItemHtml (.defined t))) ++ post)) := by
  refine ⟨?_, ?_, ?_, ?_⟩
  · intro c y rs h hne
    obtain ⟨a, as, rfl⟩ : ∃ a as, rs = a :: as := by
      cases rs with
      | nil => exact absurd rfl hne
      | cons a as => exact ⟨a, as, rfl⟩
    obtain ⟨s, hs⟩ := stackFragment_ok y
    have hp := renderPosition_eq c y _ s (respFragment_cons y a as h) hs
    refine ⟨"\n        <div class=\"job\">\n          <div class=\"job-title\">" ++
      jinjaStr (attrOf y "title") ++
      "</div>\n          <div class=\"company\">" ++ jinjaStr (attrOf c "company") ++
      "</div>\n          <div class=\"meta\">" ++ jinjaStr (attrOf y "duration") ++
      " | " ++ jinjaStr (attrOf y "location") ++ " | " ++ jinjaStr (attrOf y "type") ++
      "</div>\n          " ++ "\n          <ul>\n            ",
      "\n          </ul>\n          " ++ "\n          " ++ s ++ "\n        </div>\n      ", ?_⟩
    rw [hp]
    simp only [Except.ok.injEq, string_append_assoc]
  · intro c y ts h hne
    obtain ⟨a, as, rfl⟩ : ∃ a as, ts = a :: as := by
      cases ts with
      | nil => exact absurd rfl hne
      | cons a as => exact ⟨a, as, rfl⟩
    obtain ⟨f, hf⟩ := respFragment_ok y
    have hp := renderPosition_eq c y f _ hf (stackFragment_cons y a as h)
    refine ⟨"\n        <div class=\"job\">\n          <div class=\"job-title\">" ++
      jinjaStr (attrOf y "title") ++
      "</div>\n          <div class=\"company\">" ++ jinjaStr (attrOf c "company") ++
      "</div>\n          <div class=\"meta\">" ++ jinjaStr (attrOf y "duration") ++
      " | " ++ jinjaStr (attrOf y "location") ++ " | " ++ jinjaStr (attrOf y "type") ++
      "</div>\n          " ++ f ++ "\n          " ++
      "\n          <div class=\"skills\"><strong>Technologies:</strong> ",
      "</div>\n          " ++ "\n        </div>\n      ", ?_⟩
    rw [hp]
    simp only [Except.ok.injEq, string_append_assoc]
  · intro ps hne
    obtain ⟨a, as, rfl⟩ : ∃ a as, ps = a :: as := by
      cases ps with
      | nil => exact absurd rfl hne
      | cons a as => exact ⟨a, as, rfl⟩
    have hall : ∀ v ∈ ((a :: as).take 4).map JValue.defined,
        ∃ b, renderProject v = .ok b := by
      intro v hv
      obtain ⟨x, _, rfl⟩ := List.mem_map.mp hv
      exact renderProject_ok x
    obtain ⟨parts, hparts⟩ := mapM_ok hall
    exact ⟨parts,
      "\n  <div class=\"section\">\n    <div class=\"section-title\">Featured Projects</div>\n    ",
      "\n  </div>\n  ", hparts, projectsSection_cons a as parts hparts⟩
  · intro y tps h hne
    obtain ⟨a, as, rfl⟩ : ∃ a as, tps = a :: as := by
      cases tps with
      | nil => exact absurd rfl hne
      | cons a as => exact ⟨a, as, rfl⟩
    have hp := renderProject_eq y _ (topicsFragment_cons y a as h)
    refine ⟨"\n      <div class=\"job\">\n        <div class=\"job-title\">" ++
      jinjaTitle (jinjaStr (attrOf y "name")) ++
      "</div>\n        <div class=\"company\">" ++ jinjaStr (attrOf y "language") ++
      " | ⭐ " ++ jinjaStr (attrOf y "stars") ++
      " stars</div>\n        <div class=\"meta\">" ++ jinjaStr (attrOf y "url") ++
      "</div>\n        <div style=\"margin-top: 4px;\">" ++
      jinjaStr (attrOf y "description") ++ "</div>\n        " ++
      "\n        <div style=\"margin-top: 6px;\">\n          ",
      "\n        </div>\n        " ++ "\n      </div>\n    ", ?_⟩
    rw [hp]
    simp only [Except.ok.injEq, string_append_assoc]

/-- Concrete fixture: 7 responsibilities (one more than the limit). -/
def respListW : List Yaml :=
  [.str "r1", .str "r2", .str "r3", .str "r4", .str "r5", .str "r6", .str "r7"]

/-- Concrete fixture: 11 technologies (one more than the limit). -/
def stackListW : List Yaml :=
  [.str "t1", .str "t2", .str "t3", .str "t4", .str "t5", .str "t6",
   .str "t7", .str "t8", .str "t9", .str "t10", .str "t11"]

/-- Concrete fixture: 6 topics (one more than the limit). -/
def topicsListW : List Yaml :=
  [.str "a", .str "b", .str "c", .str "d", .str "e", .str "f"]

/-- Concrete fixture: a position holding the oversized lists. -/
def posW : Yaml := .map
  [("title", .str "Engineer"), ("duration", .str "2020"),
   ("location", .str "Warsaw"), ("type", .str "Full-time"),
   ("responsibilities", .list respListW),
   ("daily_stack", .list stackListW)]

/-- Concrete fixture: a company record. -/
def companyW : Yaml := .map [("company", .str "ACME")]

/-- Concrete fixture: a project with the oversized topics list. -/
def projW : Yaml := .map
  [("name", .str "data tool"), ("language", .str "Python"), ("stars", .int 3),
   ("url", .str "u"), ("description", .str "d"), ("topics", .list topicsListW)]

/-- Concrete fixture: 5 projects (one more than the limit). -/
def projListW : List Yaml := [projW, projW, projW, projW, projW]

/-- C1 witness: the truncation theorem applied at the concrete
oversized fixtures. -/
theorem C1_truncation_limits_witness :
    (attrOf posW "responsibilities" = .defined (.list respListW) ∧ respListW ≠ [] ∧
      ∃ pre post, renderPosition (.defined companyW) (.defined posW) =
        .ok (pre ++ String.join ((respListW.take 6).map (fun r => respItemHtml (.defined r))) ++ post)) ∧
    (attrOf posW "daily_stack" = .defined (.list stackListW) ∧ stackListW ≠ [] ∧
      ∃ pre post, renderPosition (.defined companyW) (.defined posW) =
        .ok (pre ++ String.intercalate ", " ((stackListW.take 10).map pyStr) ++ post)) ∧
    (projListW ≠ [] ∧
      ∃ parts pre post,
        ((projListW.take 4).map JValue.defined).mapM renderProject = .ok parts ∧
        projectsSection (.defined (.list projListW)) = .ok (pre ++ String.join parts ++ post)) ∧
    (attrOf projW "topics" = .defined (.list topicsListW) ∧ topicsListW ≠ [] ∧
      ∃ pre post, renderProject (.defined projW) =
        .ok (pre ++ String.join ((topicsListW.take 5).map (fun t => topicItemHtml (.defined t))) ++ post)) :=
  ⟨⟨rfl, by simp [respListW],
    C1_truncation_limits.1 companyW posW respListW rfl (by simp [respListW])⟩,
   ⟨rfl, by simp [stackListW],
    C1_truncation_limits.2.1 companyW posW stackListW rfl (by simp [stackListW])⟩,
   ⟨by simp [projListW],
    C1_truncation_limits.2.2.1 projListW (by simp [projListW])⟩,
   ⟨rfl, by simp [topicsListW],
    C1_truncation_limits.2.2.2 projW topicsListW rfl (by simp [topicsListW])⟩⟩

/-- Prefix test on character lists. -/
def chPre : List Char → List Char → Bool
  | [], _ => true
  | _ :: _, [] => false
  | a :: ns, b :: hs => a = b && chPre ns hs

/-- Contiguous-substring test on character lists. -/
def chSub (needle : List Char) : List Char → Bool
  | [] => chPre needle []
  | b :: hs => chPre needle (b :: hs) || chSub needle hs

/-- Whether `needle` occurs as a contiguous substring of `hay`. -/
def strContains (hay needle : String) : Bool :=
  chSub needle.data hay.data

/-- A record tree whose Education/Other list is present but empty
(corporate also empty, no projects). -/
def ctx2 : List (String × Yaml) :=
  [("personal_info", .map [("name", .str "Jane Doe"), ("email", .str "jane@doe.io"),
     ("phone", .str "555"), ("location", .str "Warsaw")]),
   ("about", .map [("summary", .str "Builds things.")]),
   ("experience", .map [("corporate", .list []), ("other", .list [])])]

/-- The exact markup the template produces on `ctx2`. -/
def out2 : String := "\n<!doctype html>\n<html>\n<head>\n  <meta charset=\"utf-8\">\n  <title>Jane Doe - CV</title>\n  <style>\n    @page \x7b size: A4; margin: 2cm; \x7d\n    body \x7b font-family: Arial, Helvetica, sans-serif; color: #222; font-size: 11pt; \x7d\n    .header \x7b text-align: center; border-bottom: 3px solid #4ecdc4; padding-bottom: 10px; margin-bottom: 12px; \x7d\n    h1 \x7b margin: 6px 0; font-size: 20pt; \x7d\n    .contact \x7b font-size: 9pt; color: #555; margin-top: 6px; \x7d\n    .section \x7b margin-top: 14px; \x7d\n    .section-title \x7b font-weight: bold; color: #2c3e50; margin-bottom: 6px; font-size: 12pt; \x7d\n    .job \x7b margin-bottom: 8px; \x7d\n    .job-title \x7b font-weight: bold; \x7d\n    .company \x7b color: #4ecdc4; font-weight: 600; \x7d\n    .meta \x7b color: #777; font-size: 9pt; margin-bottom: 6px; \x7d\n    ul \x7b margin: 4px 0 8px 18px; \x7d\n    .skills \x7b display: block; font-size: 9pt; color: #333; \x7d\n    .learning-tag \x7b display:inline-block; background:#ecf8f6; color:#0e7c6d; padding:2px 6px; border-radius:3px; margin:2px; font-size:9pt; \x7d\n  </style>\n</head>\n<body>\n  <div class=\"header\">\n    <h1>Jane Doe</h1>\n    <div class=\"contact\">jane@doe.io | 555 | Warsaw</div>\n  </div>\n\n  <div class=\"section\">\n    <div class=\"section-title\">Professional Summary</div>\n    <div class=\"summary\">Builds things.</div>\n  </div>\n\n  <div class=\"section\">\n    <div class=\"section-title\">Professional Experience</div>\n    \n  </div>\n\n  <div class=\"section\">\n    <div class=\"section-title\">Education & Other Experience</div>\n    \n  </div>\n\n  \n\n</body>\n</html>"

/-- C2 counterexample: on a record tree whose Education/Other list is
present but empty, rendering succeeds and the output still contains the
Education & Other Experience section (its title markup), so the output
does not omit exactly the sections whose data is empty. -/
theorem C2_counterexample :
    resolve ctx2 "experience" =
      .defined (.map [("corporate", .list []), ("other", .list [])]) ∧
    renderTemplate ctx2 = .ok out2 ∧
    strContains out2 "Education & Other Experience" = true :=
  ⟨rfl, rfl, by decide⟩

/-- The key-learnings fragment never raises when the field is absent or
list-valued. -/
theorem klFragment_ok_shape (y : Yaml)
    (h : attrOf y "key_learnings" = .undefined ∨
         ∃ kl, attrOf y "key_learnings" = .defined (.list kl)) :
    ∃ s, klFragment (.defined y) = .ok s := by
  unfold klFragment
  rcases h with h | ⟨kl, h⟩
  · simp [h]
  · cases kl with
    | nil => simp [h, yTruthy]
    | cons a as => simp [h, yTruthy, jiterate]

/-- An other-experience item never raises when its key-learnings field
is absent or list-valued. -/
theorem renderOtherItem_ok_shape (y : Yaml)
    (h : attrOf y "key_learnings" = .undefined ∨
         ∃ kl, attrOf y "key_learnings" = .defined (.list kl)) :
    ∃ s, renderOtherItem (.defined y) = .ok s := by
  obtain ⟨k, hk⟩ := klFragment_ok_shape y h
  exact ⟨_, renderOtherItem_eq y k hk⟩

/-- A company never raises when its positions field is absent or
list-valued. -/
theorem renderCompany_ok_shape (c : Yaml)
    (h : attrOf c "positions" = .undefined ∨
         ∃ pl, attrOf c "positions" = .defined (.list pl)) :
    ∃ s, renderCompany (.defined c) = .ok s := by
  unfold renderCompany
  rcases h with h | ⟨pl, h⟩
  · rw [jgetattr_defined, ok_bind, h]
    exact ⟨_, rfl⟩
  · have hall : ∀ v ∈ pl.map JValue.defined,
        ∃ b, renderPosition (.defined c) v = .ok b := by
      intro v hv
      obtain ⟨x, _, rfl⟩ := List.mem_map.mp hv
      exact renderPosition_ok c x
    obtain ⟨parts, hparts⟩ := mapM_ok hall
    rw [jgetattr_defined, ok_bind, h,
      show jiterate (.defined (.list pl)) = .ok (pl.map JValue.defined) from rfl,
      ok_bind, hparts, ok_bind]
    exact ⟨_, rfl⟩

/-- The projects section never raises when the projects value is absent
or list-valued. -/
theorem projectsSection_ok_shape (v : JValue)
    (h : v = .undefined ∨ ∃ ps, v = .defined (.list ps)) :
    ∃ s, projectsSection v = .ok s := by
  rcases h with rfl | ⟨ps, rfl⟩
  · exact ⟨"", projectsSection_undef⟩
  · cases ps with
    | nil => exact ⟨"", projectsSection_nil⟩
    | cons a as =>
        have hall : ∀ v2 ∈ ((a :: as).take 4).map JValue.defined,
            ∃ b, renderProject v2 = .ok b := by
          intro v2 hv
          obtain ⟨x, _, rfl⟩ := List.mem_map.mp hv
          exact renderProject_ok x
        obtain ⟨parts, hparts⟩ := mapM_ok hall
        exact ⟨_, projectsSection_cons a as parts hparts⟩

/-- Total rendering over partial data: the template renders without
raising whenever the three attribute-accessed top-level keys are
present and the optional nested fields are absent or list-valued. -/
theorem renderTemplate_total (ctx : List (String × Yaml)) (piv av ev : Yaml)
    (hpi : resolve ctx "personal_info" = .defined piv)
    (hab : resolve ctx "about" = .defined av)
    (hex : resolve ctx "experience" = .defined ev)
    (hcorp : attrOf ev "corporate" = .undefined ∨
      ∃ cl, attrOf ev "corporate" = .defined (.list cl) ∧
        ∀ c ∈ cl, attrOf c "positions" = .undefined ∨
          ∃ pl, attrOf c "positions" = .defined (.list pl))
    (hoth : attrOf ev "other" = .undefined ∨
      ∃ ol, attrOf ev "other" = .defined (.list ol) ∧
        ∀ o ∈ ol, attrOf o "key_learnings" = .undefined ∨
          ∃ kl, attrOf o "key_learnings" = .defined (.list kl))
    (hproj : resolve ctx "projects" = .undefined ∨
      ∃ psl, resolve ctx "projects" = .defined (.list psl)) :
    ∃ out, renderTemplate ctx = .ok out := by
  have hcorpParts : ∃ cs parts, jiterate (attrOf ev "corporate") = .ok cs ∧
      cs.mapM renderCompany = .ok parts := by
    rcases hcorp with h | ⟨cl, h, hwf⟩
    · exact ⟨[], [], by rw [h]; rfl, rfl⟩
    · have hall : ∀ v ∈ cl.map JValue.defined, ∃ b, renderCompany v = .ok b := by
        intro v hv
        obtain ⟨x, hx, rfl⟩ := List.mem_map.mp hv
        exact renderCompany_ok_shape x (hwf x hx)
      obtain ⟨parts, hparts⟩ := mapM_ok hall
      exact ⟨cl.map JValue.defined, parts, by rw [h]; rfl, hparts⟩
  have hothParts : ∃ os parts, jiterate (attrOf ev "other") = .ok os ∧
      os.mapM renderOtherItem = .ok parts := by
    rcases hoth with h | ⟨ol, h, hwf⟩
    · exact ⟨[], [], by rw [h]; rfl, rfl⟩
    · have hall : ∀ v ∈ ol.map JValue.defined, ∃ b, renderOtherItem v = .ok b := by
        intro v hv
        obtain ⟨x, hx, rfl⟩ := List.mem_map.mp hv
        exact renderOtherItem_ok_shape x (hwf x hx)
      obtain ⟨parts, hparts⟩ := mapM_ok hall
      exact ⟨ol.map JValue.defined, parts, by rw [h]; rfl, hparts⟩
  obtain ⟨cs, cp, hcs, hcp⟩ := hcorpParts
  obtain ⟨os, op, hos, hop⟩ := hothParts
  obtain ⟨pf, hpf⟩ := projectsSection_ok_shape (resolve ctx "projects") hproj
  unfold renderTemplate
  simp only [hpi, hab, hex, jgetattr_defined, ok_bind]
  simp only [hcs, ok_bind, hcp, hos, hop, hpf]
  exact ⟨_, rfl⟩

/-- C2 (amended): for record trees missing any subset of optional
fields, rendering completes without error; the Projects section is
emitted iff the projects sequence is non-empty; the Education/Other
section header is always emitted (only its items are omitted when the
list is empty). -/
theorem C2_amended :
    (∀ (ctx : List (String × Yaml)) (out : String), renderTemplate ctx = .ok out →
      ∃ pf q r, projectsSection (resolve ctx "projects") = .ok pf ∧
        out = q ++ "Education & Other Experience" ++ r ++ pf ++ strH) ∧
    projectsSection .undefined = .ok "" ∧
    (∀ (ps : List Yaml) (pf : String),
      projectsSection (.defined (.list ps)) = .ok pf →
      (ps = [] → pf = "") ∧
      (ps ≠ [] → ∃ q r, pf = q ++ "Featured Projects" ++ r)) ∧
    (∀ (ctx : List (String × Yaml)) (piv av ev : Yaml),
      resolve ctx "personal_info" = .defined piv →
      resolve ctx "about" = .defined av →
      resolve ctx "experience" = .defined ev →
      (attrOf ev "corporate" = .undefined ∨
        ∃ cl, attrOf ev "corporate" = .defined (.list cl) ∧
          ∀ c ∈ cl, attrOf c "positions" = .undefined ∨
            ∃ pl, attrOf c "positions" = .defined (.list pl)) →
      (attrOf ev "other" = .undefined ∨
        ∃ ol, attrOf ev "other" = .defined (.list ol) ∧
          ∀ o ∈ ol, attrOf o "key_learnings" = .undefined ∨
            ∃ kl, attrOf o "key_learnings" = .defined (.list kl)) →
      (resolve ctx "projects" = .undefined ∨
        ∃ psl, resolve ctx "projects" = .defined (.list psl)) →
      ∃ out, renderTemplate ctx = .ok out) := by
  refine ⟨?_, projectsSection_undef, ?_, renderTemplate_total⟩
  · intro ctx out hout
    unfold renderTemplate at hout
    simp only [bind_eq_ok, pure_eq_ok, Except.ok.injEq] at hout
    obtain ⟨name, hname, email, hemail, phone, hphone, loc, hloc, summary, hsum,
      corp, hcorp, cs, hcs, cp, hcp, other, hother, os, hos, op, hop, pf, hpf,
      hout⟩ := hout
    refine ⟨pf,
      strA ++ jinjaStr name ++ strB ++ jinjaStr name ++ strC ++ jinjaStr email ++
        " | " ++ jinjaStr phone ++ " | " ++ jinjaStr loc ++ strD ++
        jinjaStr summary ++ strE ++ String.join cp ++
        "\n  </div>\n\n  <div class=\"section\">\n    <div class=\"section-title\">",
      "</div>\n    " ++ String.join op ++ strG, hpf, ?_⟩
    rw [← hout,
      show strF = "\n  </div>\n\n  <div class=\"section\">\n    <div class=\"section-title\">" ++
        "Education & Other Experience" ++ "</div>\n    " from rfl]
    simp only [string_append_assoc]
  · intro ps pf hpf
    constructor
    · rintro rfl
      rw [projectsSection_nil] at hpf
      injection hpf with h
      exact h.symm
    · intro hne
      obtain ⟨a, as, rfl⟩ : ∃ a as, ps = a :: as := by
        cases ps with
        | nil => exact absurd rfl hne
        | cons a as => exact ⟨a, as, rfl⟩
      have hall : ∀ v2 ∈ ((a :: as).take 4).map JValue.defined,
          ∃ b, renderProject v2 = .ok b := by
        intro v2 hv
        obtain ⟨x, _, rfl⟩ := List.mem_map.mp hv
        exact renderProject_ok x
      obtain ⟨parts, hparts⟩ := mapM_ok hall
      have hsec := projectsSection_cons a as parts hparts
      rw [hsec] at hpf
      injection hpf with h
      refine ⟨"\n  <div class=\"section\">\n    <div class=\"section-title\">",
        "</div>\n    " ++ String.join parts ++ "\n  </div>\n  ", ?_⟩
      rw [← h,
        show ("\n  <div class=\"section\">\n    <div class=\"section-title\">Featured Projects</div>\n    " : String) =
          "\n  <div class=\"section\">\n    <div class=\"section-title\">" ++
          "Featured Projects" ++ "</div>\n    " from rfl]
      simp only [string_append_assoc]

/-- C2 witness: the amended theorem applied at the concrete tree `ctx2`
(decomposition of its exact output, empty-projects emptiness, and total
rendering). -/
theorem C2_amended_witness :
    (∃ pf q r, projectsSection (resolve ctx2 "projects") = .ok pf ∧
      out2 = q ++ "Education & Other Experience" ++ r ++ pf ++ strH) ∧
    (([] : List Yaml) = [] → ("" : String) = "") ∧
    (∃ out, renderTemplate ctx2 = .ok out) :=
  ⟨C2_amended.1 ctx2 out2 rfl,
   (C2_amended.2.2.1 [] "" rfl).1,
   C2_amended.2.2.2 ctx2
     (.map [("name", .str "Jane Doe"), ("email", .str "jane@doe.io"),
       ("phone", .str "555"), ("location", .str "Warsaw")])
     (.map [("summary", .str "Builds things.")])
     (.map [("corporate", .list []), ("other", .list [])])
     rfl rfl rfl
     (Or.inr ⟨[], rfl, by simp⟩)
     (Or.inr ⟨[], rfl, by simp⟩)
     (Or.inl rfl)⟩

/-- A record tree with `personal_info` and `experience` but no `about`
key at the top level. -/
def ctx4 : List (String × Yaml) :=
  [("personal_info", .map [("name", .str "Jane")]),
   ("experience", .map [("corporate", .list []), ("other", .list [])])]

/-- C4 counterexample: a record tree missing only the top-level `about`
key makes rendering raise (Jinja2 `UndefinedError` at `about.summary`)
instead of propagating as missing/empty. -/
theorem C4_counterexample :
    alookup ctx4 "about" = none ∧
    renderTemplate ctx4 = .error .undefinedError :=
  ⟨rfl, rfl⟩

/-- C4 (amended): sections absent below a present mapping (for example
`experience.corporate` and `experience.other` missing inside an
existing `experience` mapping) propagate as missing/empty and render
without raising; but a missing top-level key whose attribute is
accessed (`personal_info`, `about`, `experience`) raises an
`UndefinedError`. -/
theorem C4_missing_sections :
    (∀ (ctx : List (String × Yaml)) (piv av : Yaml) (ekvs : List (String × Yaml)),
      resolve ctx "personal_info" = .defined piv →
      resolve ctx "about" = .defined av →
      resolve ctx "experience" = .defined (.map ekvs) →
      alookup ekvs "corporate" = none →
      alookup ekvs "other" = none →
      (alookup ctx "projects" = none ∨ ∃ l, alookup ctx "projects" = some (.list l)) →
      ∃ out, renderTemplate ctx = .ok out) ∧
    (∀ (ctx : List (String × Yaml)) (piv : Yaml),
      resolve ctx "personal_info" = .defined piv →
      alookup ctx "about" = none →
      renderTemplate ctx = .error .undefinedError) ∧
    (∀ (ctx : List (String × Yaml)) (piv av : Yaml),
      resolve ctx "personal_info" = .defined piv →
      resolve ctx "about" = .defined av →
      alookup ctx "experience" = none →
      renderTemplate ctx = .error .undefinedError) ∧
    (∀ (ctx : List (String × Yaml)),
      alookup ctx "personal_info" = none →
      renderTemplate ctx = .error .undefinedError) := by
  refine ⟨?_, ?_, ?_, ?_⟩
  · intro ctx piv av ekvs hpi hab hex hc ho hp
    refine renderTemplate_total ctx piv av (.map ekvs) hpi hab hex
      (Or.inl (by simp [attrOf, hc]))
      (Or.inl (by simp [attrOf, ho])) ?_
    rcases hp with hp | ⟨l, hp⟩
    · exact Or.inl (by simp [resolve, hp])
    · exact Or.inr ⟨l, by simp [resolve, hp]⟩
  · intro ctx piv hpi hab
    have hub : resolve ctx "about" = .undefined := by simp [resolve, hab]
    unfold renderTemplate
    simp only [hpi, hub, jgetattr_defined, ok_bind,
      show jgetattr JValue.undefined "summary" = .error .undefinedError from rfl,
      error_bind]
  · intro ctx piv av hpi hab hex
    have hue : resolve ctx "experience" = .undefined := by simp [resolve, hex]
    unfold renderTemplate
    simp only [hpi, hab, hue, jgetattr_defined, ok_bind,
      show jgetattr JValue.undefined "corporate" = .error .undefinedError from rfl,
      error_bind]
  · intro ctx hpi
    have hup : resolve ctx "personal_info" = .undefined := by simp [resolve, hpi]
    unfold renderTemplate
    simp only [hup,
      show jgetattr JValue.undefined "name" = .error .undefinedError from rfl,
      error_bind]

/-- A record tree whose `experience` mapping is present but empty. -/
def ctxE : List (String × Yaml) :=
  [("personal_info", .map []), ("about", .map []), ("experience", .map [])]

/-- A record tree with `personal_info` and `about` but no `experience`. -/
def ctxF : List (String × Yaml) :=
  [("personal_info", .map []), ("about", .map [])]

/-- C4 witness: the amended theorem applied at concrete trees with the
respective keys missing. -/
theorem C4_missing_sections_witness :
    (∃ out, renderTemplate ctxE = .ok out) ∧
    renderTemplate ctx4 = .error .undefinedError ∧
    renderTemplate ctxF = .error .undefinedError ∧
    renderTemplate [] = .error .undefinedError :=
  ⟨C4_missing_sections.1 ctxE (.map []) (.map []) [] rfl rfl rfl rfl rfl
     (Or.inl rfl),
   C4_missing_sections.2.1 ctx4 (.map [("name", .str "Jane")]) rfl rfl,
   C4_missing_sections.2.2.1 ctxF (.map []) (.map []) rfl rfl rfl,
   C4_missing_sections.2.2.2 [] rfl⟩

/-- Exact shape of a successful render: the header and summary fields
are emitted via `jinjaStr ∘ attrOf` (empty string for a missing key),
followed by the three loop sections. -/
theorem renderTemplate_eq (ctx : List (String × Yaml)) (piv av ev : Yaml)
    (hpi : resolve ctx "personal_info" = .defined piv)
    (hab : resolve ctx "about" = .defined av)
    (hex : resolve ctx "experience" = .defined ev)
    (hcorp : attrOf ev "corporate" = .undefined ∨
      ∃ cl, attrOf ev "corporate" = .defined (.list cl) ∧
        ∀ c ∈ cl, attrOf c "positions" = .undefined ∨
          ∃ pl, attrOf c "positions" = .defined (.list pl))
    (hoth : attrOf ev "other" = .undefined ∨
      ∃ ol, attrOf ev "other" = .defined (.list ol) ∧
        ∀ o ∈ ol, attrOf o "key_learnings" = .undefined ∨
          ∃ kl, attrOf o "key_learnings" = .defined (.list kl))
    (hproj : resolve ctx "projects" = .undefined ∨
      ∃ psl, resolve ctx "projects" = .defined (.list psl)) :
    ∃ cp op pf, renderTemplate ctx = .ok
      (strA ++ jinjaStr (attrOf piv "name") ++ strB ++
       jinjaStr (attrOf piv "name") ++ strC ++ jinjaStr (attrOf piv "email") ++
       " | " ++ jinjaStr (attrOf piv "phone") ++ " | " ++
       jinjaStr (attrOf piv "location") ++ strD ++
       jinjaStr (attrOf av "summary") ++ strE ++ String.join cp ++ strF ++
       String.join op ++ strG ++ pf ++ strH) := by
  have hcorpParts : ∃ cs parts, jiterate (attrOf ev "corporate") = .ok cs ∧
      cs.mapM renderCompany = .ok parts := by
    rcases hcorp with h | ⟨cl, h, hwf⟩
    · exact ⟨[], [], by rw [h]; rfl, rfl⟩
    · have hall : ∀ v ∈ cl.map JValue.defined, ∃ b, renderCompany v = .ok b := by
        intro v hv
        obtain ⟨x, hx, rfl⟩ := List.mem_map.mp hv
        exact renderCompany_ok_shape x (hwf x hx)
      obtain ⟨parts, hparts⟩ := mapM_ok hall
      exact ⟨cl.map JValue.defined, parts, by rw [h]; rfl, hparts⟩
  have hothParts : ∃ os parts, jiterate (attrOf ev "other") = .ok os ∧
      os.mapM renderOtherItem = .ok parts := by
    rcases hoth with h | ⟨ol, h, hwf⟩
    · exact ⟨[], [], by rw [h]; rfl, rfl⟩
    · have hall : ∀ v ∈ ol.map JValue.defined, ∃ b, renderOtherItem v = .ok b := by
        intro v hv
        obtain ⟨x, hx, rfl⟩ := List.mem_map.mp hv
        exact renderOtherItem_ok_shape x (hwf x hx)
      obtain ⟨parts, hparts⟩ := mapM_ok hall
      exact ⟨ol.map JValue.defined, parts, by rw [h]; rfl, hparts⟩
  obtain ⟨cs, cp, hcs, hcp⟩ := hcorpParts
  obtain ⟨os, op, hos, hop⟩ := hothParts
  obtain ⟨pf, hpf⟩ := projectsSection_ok_shape (resolve ctx "projects") hproj
  refine ⟨cp, op, pf, ?_⟩
  unfold renderTemplate
  simp only [hpi, hab, hex, jgetattr_defined, ok_bind]
  simp only [hcs, ok_bind, hcp, hos, hop, hpf]
  rfl

/-- C5: for every record tree whose `personal_info` mapping is missing
any of the required fields (name, email, phone, location), rendering
does not fail and emits the empty string in the missing field's place:
the output header is `jinjaStr (attrOf personal_info field)`, which is
the empty string exactly when the field is absent. -/
theorem C5_missing_required_fields :
    (∀ (kvs : List (String × Yaml)) (k : String),
      alookup kvs k = none → jinjaStr (attrOf (.map kvs) k) = "") ∧
    (∀ (ctx : List (String × Yaml)) (pkvs : List (String × Yaml)) (av ev : Yaml),
      resolve ctx "personal_info" = .defined (.map pkvs) →
      resolve ctx "about" = .defined av →
      resolve ctx "experience" = .defined ev →
      (attrOf ev "corporate" = .undefined ∨
        ∃ cl, attrOf ev "corporate" = .defined (.list cl) ∧
          ∀ c ∈ cl, attrOf c "positions" = .undefined ∨
            ∃ pl, attrOf c "positions" = .defined (.list pl)) →
      (attrOf ev "other" = .undefined ∨
        ∃ ol, attrOf ev "other" = .defined (.list ol) ∧
          ∀ o ∈ ol, attrOf o "key_learnings" = .undefined ∨
            ∃ kl, attrOf o "key_learnings" = .defined (.list kl)) →
      (resolve ctx "projects" = .undefined ∨
        ∃ psl, resolve ctx "projects" = .defined (.list psl)) →
      ∃ tail, renderTemplate ctx = .ok
        (strA ++ jinjaStr (attrOf (.map pkvs) "name") ++ strB ++
         jinjaStr (attrOf (.map pkvs) "name") ++ strC ++
         jinjaStr (attrOf (.map pkvs) "email") ++ " | " ++
         jinjaStr (attrOf (.map pkvs) "phone") ++ " | " ++
         jinjaStr (attrOf (.map pkvs) "location") ++ strD ++ tail)) := by
  constructor
  · intro kvs k h
    simp [attrOf, h]
  · intro ctx pkvs av ev hpi hab hex hc ho hp
    obtain ⟨cp, op, pf, hout⟩ := renderTemplate_eq ctx (.map pkvs) av ev
      hpi hab hex hc ho hp
    refine ⟨jinjaStr (attrOf av "summary") ++ strE ++ String.join cp ++ strF ++
      String.join op ++ strG ++ pf ++ strH, ?_⟩
    rw [hout]
    simp only [Except.ok.injEq, string_append_assoc]

/-- C5 witness: the theorem applied at a tree whose `personal_info`
mapping is empty (all four required fields missing). -/
theorem C5_missing_required_fields_witness :
    (alookup ([] : List (String × Yaml)) "name" = none ∧
      jinjaStr (attrOf (.map []) "name") = "") ∧
    (∃ tail, renderTemplate ctxE = .ok
      (strA ++ jinjaStr (attrOf (.map []) "name") ++ strB ++
       jinjaStr (attrOf (.map []) "name") ++ strC ++
       jinjaStr (attrOf (.map []) "email") ++ " | " ++
       jinjaStr (attrOf (.map []) "phone") ++ " | " ++
       jinjaStr (attrOf (.map []) "location") ++ strD ++ tail)) :=
  ⟨⟨rfl, C5_missing_required_fields.1 [] "name" rfl⟩,
   C5_missing_required_fields.2 ctxE [] (.map []) (.map []) rfl rfl rfl
     (Or.inl rfl) (Or.inl rfl) (Or.inl rfl)⟩

/-- C6: in the rendered output the project name is passed through the
Jinja2 `title` filter (title-cased), while every other text field of a
project, a position or an other-experience item is emitted via
`jinjaStr`, which is the identity on strings — no other transform. -/
theorem C6_title_transform :
    (∀ (y : Yaml) (t : String), topicsFragment (.defined y) = .ok t →
      renderProject (.defined y) = .ok
        ("\n      <div class=\"job\">\n        <div class=\"job-title\">" ++
         jinjaTitle (jinjaStr (attrOf y "name")) ++
         "</div>\n        <div class=\"company\">" ++ jinjaStr (attrOf y "language") ++
         " | ⭐ " ++ jinjaStr (attrOf y "stars") ++
         " stars</div>\n        <div class=\"meta\">" ++ jinjaStr (attrOf y "url") ++
         "</div>\n        <div style=\"margin-top: 4px;\">" ++
         jinjaStr (attrOf y "description") ++
         "</div>\n        " ++ t ++ "\n      </div>\n    ")) ∧
    (∀ (c y : Yaml) (f s : String),
      respFragment (.defined y) = .ok f →
      stackFragment (.defined y) = .ok s →
      renderPosition (.defined c) (.defined y) = .ok
        ("\n        <div class=\"job\">\n          <div class=\"job-title\">" ++
         jinjaStr (attrOf y "title") ++
         "</div>\n          <div class=\"company\">" ++ jinjaStr (attrOf c "company") ++
         "</div>\n          <div class=\"meta\">" ++ jinjaStr (attrOf y "duration") ++
         " | " ++ jinjaStr (attrOf y "location") ++ " | " ++ jinjaStr (attrOf y "type") ++
         "</div>\n          " ++ f ++ "\n          " ++ s ++
         "\n        </div>\n      ")) ∧
    (∀ s : String, jinjaStr (.defined (.str s)) = s) ∧
    jinjaTitle "data-pipeline tool" = "Data-Pipeline Tool" :=
  ⟨renderProject_eq, renderPosition_eq, fun _ => rfl, by decide⟩

/-- Concrete fixture: a project without topics. -/
def projW2 : Yaml := .map
  [("name", .str "data tool"), ("language", .str "Python"), ("stars", .int 3),
   ("url", .str "u"), ("description", .str "d")]

/-- Concrete fixture: a position with only a title. -/
def posW2 : Yaml := .map [("title", .str "T")]

/-- C6 witness: the transform theorem applied at concrete records. -/
theorem C6_title_transform_witness :
    (topicsFragment (.defined projW2) = .ok "" ∧
      renderProject (.defined projW2) = .ok
        ("\n      <div class=\"job\">\n        <div class=\"job-title\">" ++
         jinjaTitle (jinjaStr (attrOf projW2 "name")) ++
         "</div>\n        <div class=\"company\">" ++ jinjaStr (attrOf projW2 "language") ++
         " | ⭐ " ++ jinjaStr (attrOf projW2 "stars") ++
         " stars</div>\n        <div class=\"meta\">" ++ jinjaStr (attrOf projW2 "url") ++
         "</div>\n        <div style=\"margin-top: 4px;\">" ++
         jinjaStr (attrOf projW2 "description") ++
         "</div>\n        " ++ "" ++ "\n      </div>\n    ")) ∧
    renderPosition (.defined companyW) (.defined posW2) = .ok
      ("\n        <div class=\"job\">\n          <div class=\"job-title\">" ++
       jinjaStr (attrOf posW2 "title") ++
       "</div>\n          <div class=\"company\">" ++ jinjaStr (attrOf companyW "company") ++
       "</div>\n          <div class=\"meta\">" ++ jinjaStr (attrOf posW2 "duration") ++
       " | " ++ jinjaStr (attrOf posW2 "location") ++ " | " ++ jinjaStr (attrOf posW2 "type") ++
       "</div>\n          " ++ "" ++ "\n          " ++ "" ++
       "\n        </div>\n      ") :=
  ⟨⟨rfl, C6_title_transform.1 projW2 "" rfl⟩,
   C6_title_transform.2.1 companyW posW2 "" "" rfl rfl⟩

/-- Characterisation of the enrichment condition of `main` over record
trees whose `projects` value, if present, is a list: the Python
expression `github_url and (not p or len(p) == 0)` reduces to
"github truthy and projects falsy". -/
theorem enrichCond_char (kvs : List (String × Yaml)) (pi0 social gv : Yaml)
    (h1 : pyGetD (.map kvs) "personal_info" (.map []) = .ok pi0)
    (h2 : pyGetD pi0 "social" (.map []) = .ok social)
    (h3 : pyGetD social "github" .null = .ok gv)
    (h5 : alookup kvs "projects" = none ∨
          ∃ l, alookup kvs "projects" = some (.list l)) :
    enrichCond (.map kvs) = .ok
      (yTruthy gv && !yTruthy ((alookup kvs "projects").getD .null)) := by
  unfold enrichCond
  simp only [h1, ok_bind, h2, h3]
  cases hgv : yTruthy gv with
  | false => simp
  | true =>
      simp only [Bool.true_and, if_pos rfl]
      rcases h5 with h5 | ⟨l, h5⟩
      · simp [pyGetD, h5, yTruthy]
      · cases l with
        | nil => simp [pyGetD, h5, yTruthy]
        | cons x xs => simp [pyGetD, h5, yTruthy, pyLen]

/-- The enrichment step of `main`, characterised: a single fetch call
attaching the list under `projects` when the condition holds, and the
unchanged tree with zero calls otherwise. -/
theorem enrichStep_char (kvs : List (String × Yaml))
    (fetch : Yaml → Option String → List Yaml) (token : Option String)
    (pi0 social gv : Yaml)
    (h1 : pyGetD (.map kvs) "personal_info" (.map []) = .ok pi0)
    (h2 : pyGetD pi0 "social" (.map []) = .ok social)
    (h3 : pyGetD social "github" .null = .ok gv)
    (h5 : alookup kvs "projects" = none ∨
          ∃ l, alookup kvs "projects" = some (.list l)) :
    enrichStep (.map kvs) fetch token = .ok
      (if yTruthy gv && !yTruthy ((alookup kvs "projects").getD .null)
       then (dictSet (.map kvs) "projects" (.list (fetch gv token)), 1)
       else (.map kvs, 0)) := by
  unfold enrichStep
  rw [enrichCond_char kvs pi0 social gv h1 h2 h3 h5]
  simp only [ok_bind]
  cases hb : (yTruthy gv && !yTruthy ((alookup kvs "projects").getD .null)) with
  | false => simp [hb]
  | true => simp [hb, h1, h2, h3]

/-- C3: the orchestrator invokes enrichment exactly once iff a GitHub
identifier is present (a non-empty string) under the profile's social
links and the projects list is absent or empty; any non-empty projects
list disables enrichment regardless of length. -/
theorem C3_enrichment_trigger :
    ∀ (kvs : List (String × Yaml)) (fetch : Yaml → Option String → List Yaml)
      (token : Option String) (pi0 social gv : Yaml),
      pyGetD (.map kvs) "personal_info" (.map []) = .ok pi0 →
      pyGetD pi0 "social" (.map []) = .ok social →
      pyGetD social "github" .null = .ok gv →
      (gv = .null ∨ ∃ s, gv = .str s) →
      (alookup kvs "projects" = none ∨
        ∃ l, alookup kvs "projects" = some (.list l)) →
      ∃ d2 n, enrichStep (.map kvs) fetch token = .ok (d2, n) ∧
        (n = 1 ↔ ((∃ s, gv = .str s ∧ s ≠ "") ∧
          (alookup kvs "projects" = none ∨
           alookup kvs "projects" = some (.list [])))) ∧
        (n = 0 ∨ n = 1) ∧
        (∀ x xs, alookup kvs "projects" = some (.list (x :: xs)) → n = 0) ∧
        (∀ (s0 : String) (parse : String → Except YamlErr Yaml) (fs : List String),
          parse s0 = .ok (.map kvs) →
          (mainModel (.content s0) parse fetch token fs).1 = n) := by
  intro kvs fetch token pi0 social gv h1 h2 h3 h4 h5
  have hstep := enrichStep_char kvs fetch token pi0 social gv h1 h2 h3 h5
  have hbiff : (yTruthy gv && !yTruthy ((alookup kvs "projects").getD .null)) = true ↔
      ((∃ s, gv = .str s ∧ s ≠ "") ∧
       (alookup kvs "projects" = none ∨
        alookup kvs "projects" = some (.list []))) := by
    rw [Bool.and_eq_true]
    constructor
    · rintro ⟨hg, hp⟩
      constructor
      · rcases h4 with rfl | ⟨s, rfl⟩
        · simp [yTruthy] at hg
        · refine ⟨s, rfl, ?_⟩
          simp only [yTruthy, Bool.not_eq_true'] at hg
          intro hcontra
          rw [hcontra] at hg
          exact (by decide : ("" : String).isEmpty ≠ false) hg
      · rcases h5 with h5 | ⟨l, h5⟩
        · exact Or.inl h5
        · cases l with
          | nil => exact Or.inr h5
          | cons x xs =>
              rw [h5] at hp
              simp [yTruthy] at hp
    · rintro ⟨⟨s, rfl, hne⟩, hp⟩
      refine ⟨?_, ?_⟩
      · have : s.isEmpty = false := by
          rw [← Bool.not_eq_true, String.isEmpty_iff]
          exact hne
        simp [yTruthy, this]
      · rcases hp with hp | hp <;> rw [hp] <;> simp [yTruthy]
  cases hb : (yTruthy gv && !yTruthy ((alookup kvs "projects").getD .null)) with
  | true =>
      rw [hb, if_pos rfl] at hstep
      refine ⟨_, 1, hstep, ?_, Or.inr rfl, ?_, ?_⟩
      · simp only [true_iff]
        exact hbiff.mp hb
      · intro x xs hxx
        rcases (hbiff.mp hb).2 with hcontra | hcontra
        · rw [hxx] at hcontra; cases hcontra
        · rw [hxx] at hcontra
          injection hcontra with hl
          cases hl
      · intro s0 parse fs hparse
        unfold mainModel
        simp only [show load_data (.content s0) parse = .ok (.map kvs) from by
          simp [load_data, hparse], hstep]
  | false =>
      rw [hb, if_neg (by simp)] at hstep
      refine ⟨_, 0, hstep, ?_, Or.inl rfl, fun _ _ _ => rfl, ?_⟩
      · constructor
        · intro h01; cases h01
        · intro hrhs
          rw [hbiff.mpr hrhs] at hb
          cases hb
      · intro s0 parse fs hparse
        unfold mainModel
        simp only [show load_data (.content s0) parse = .ok (.map kvs) from by
          simp [load_data, hparse], hstep]

/-- Concrete fixture: a GitHub URL value. -/
def gv3 : Yaml := .str "https://github.com/u"

/-- Concrete fixture: a record tree with a GitHub identifier and no
projects key. -/
def kvs3 : List (String × Yaml) :=
  [("personal_info", .map [("social", .map [("github", gv3)])])]

/-- C3 witness: the trigger theorem applied at a concrete tree with a
GitHub identifier and no projects. -/
theorem C3_enrichment_trigger_witness :
    ∃ d2 n, enrichStep (.map kvs3) (fun _ _ => []) none = .ok (d2, n) ∧
      (n = 1 ↔ ((∃ s, gv3 = .str s ∧ s ≠ "") ∧
        (alookup kvs3 "projects" = none ∨
         alookup kvs3 "projects" = some (.list [])))) ∧
      (n = 0 ∨ n = 1) ∧
      (∀ x xs, alookup kvs3 "projects" = some (.list (x :: xs)) → n = 0) ∧
      (∀ (s0 : String) (parse : String → Except YamlErr Yaml) (fs : List String),
        parse s0 = .ok (.map kvs3) →
        (mainModel (.content s0) parse (fun _ _ => []) none fs).1 = n) :=
  C3_enrichment_trigger kvs3 (fun _ _ => []) none
    (.map [("social", .map [("github", gv3)])]) (.map [("github", gv3)]) gv3
    rfl rfl rfl (Or.inr ⟨_, rfl⟩) (Or.inl rfl)

/-- C7: the loader fails exactly when the file is missing, unreadable,
or not parseable; otherwise it returns the parsed record tree; a load
failure propagates unchanged through `main` (no retry, no enrichment,
no render, no write). -/
theorem C7_load_errors :
    (∀ (parse : String → Except YamlErr Yaml),
      load_data .missing parse = .error .fileMissing ∧
      load_data .unreadable parse = .error .unreadable) ∧
    (∀ (s : String) (parse : String → Except YamlErr Yaml) (e : YamlErr),
      parse s = .error e → load_data (.content s) parse = .error (.notParseable e)) ∧
    (∀ (s : String) (parse : String → Except YamlErr Yaml) (y : Yaml),
      parse s = .ok y → load_data (.content s) parse = .ok y) ∧
    (∀ (file : FileRead) (parse : String → Except YamlErr Yaml) (e : DataLoadError),
      load_data file parse = .error e →
      (file = .missing ∧ e = .fileMissing) ∨
      (file = .unreadable ∧ e = .unreadable) ∨
      (∃ s pe, file = .content s ∧ parse s = .error pe ∧ e = .notParseable pe)) ∧
    (∀ (file : FileRead) (parse : String → Except YamlErr Yaml)
       (fetch : Yaml → Option String → List Yaml) (token : Option String)
       (fs : List String) (e : DataLoadError),
      load_data file parse = .error e →
      (mainModel file parse fetch token fs).1 = 0 ∧
      (mainModel file parse fetch token fs).2 = .error (.load e)) := by
  refine ⟨fun _ => ⟨rfl, rfl⟩, ?_, ?_, ?_, ?_⟩
  · intro s parse e h
    simp [load_data, h]
  · intro s parse y h
    simp [load_data, h]
  · intro file parse e h
    cases file with
    | missing =>
        simp only [load_data] at h
        injection h with h2
        exact Or.inl ⟨rfl, h2.symm⟩
    | unreadable =>
        simp only [load_data] at h
        injection h with h2
        exact Or.inr (Or.inl ⟨rfl, h2.symm⟩)
    | content s =>
        simp only [load_data] at h
        cases hp : parse s with
        | ok y => simp [hp] at h
        | error pe =>
            simp only [hp] at h
            injection h with h2
            exact Or.inr (Or.inr ⟨s, pe, rfl, hp, h2.symm⟩)
  · intro file parse fetch token fs e h
    unfold mainModel
    rw [h]
    exact ⟨rfl, rfl⟩

/-- A parser that always fails, for the witness. -/
def parseBad : String → Except YamlErr Yaml := fun _ => .error .syntaxError

/-- A parser that always yields `null`, for the witness. -/
def parseNull : String → Except YamlErr Yaml := fun _ => .ok .null

/-- C7 witness: the loader contract applied at concrete files and
parsers. -/
theorem C7_load_errors_witness :
    (load_data .missing parseNull = .error .fileMissing ∧
     load_data .unreadable parseNull = .error .unreadable) ∧
    load_data (.content "x") parseBad = .error (.notParseable .syntaxError) ∧
    load_data (.content "x") parseNull = .ok .null ∧
    ((FileRead.missing = .missing ∧ DataLoadError.fileMissing = .fileMissing) ∨
     (FileRead.missing = .unreadable ∧ DataLoadError.fileMissing = .unreadable) ∨
     (∃ s pe, FileRead.missing = .content s ∧ parseNull s = .error pe ∧
       DataLoadError.fileMissing = .notParseable pe)) ∧
    ((mainModel .missing parseNull (fun _ _ => []) none []).1 = 0 ∧
     (mainModel .missing parseNull (fun _ _ => []) none []).2 =
       .error (.load .fileMissing)) :=
  ⟨C7_load_errors.1 parseNull,
   C7_load_errors.2.1 "x" parseBad .syntaxError rfl,
   C7_load_errors.2.2.1 "x" parseNull .null rfl,
   C7_load_errors.2.2.2.1 .missing parseNull .fileMissing rfl,
   C7_load_errors.2.2.2.2 .missing parseNull (fun _ _ => []) none [] .fileMissing rfl⟩

/-- C8 counterexample: for an output path with no directory component,
`os.path.dirname` is empty and `os.makedirs("")` raises
`FileNotFoundError`, so the writer fails even though the parent
directory (the working directory) exists. -/
theorem C8_counterexample :
    dirname "cv.pdf" = "" ∧
    write_pdf ["html"] "doc" "cv.pdf" = .error .fileNotFoundError :=
  ⟨rfl, rfl⟩

/-- C8 (amended): for every output path whose dirname is non-empty, the
writer ensures the parent directory exists before writing, creating it
if necessary, and the creation is idempotent: no error and no change
when the parent already exists. -/
theorem C8_parent_directory :
    ∀ (fs : List String) (doc out : String), dirname out ≠ "" →
      ∃ fs2, write_pdf fs doc out = .ok (fs2, out, doc) ∧
        dirname out ∈ fs2 ∧
        (dirname out ∈ fs → fs2 = fs) := by
  intro fs doc out h
  unfold write_pdf makedirs
  rw [if_neg h]
  by_cases hm : dirname out ∈ fs
  · rw [if_pos hm]
    exact ⟨fs, rfl, hm, fun _ => rfl⟩
  · rw [if_neg hm]
    exact ⟨dirname out :: fs, rfl, List.mem_cons_self _ _, fun hc => absurd hc hm⟩

/-- C8 witness: the amended writer contract at the default output path
with the parent directory already present. -/
theorem C8_parent_directory_witness :
    dirname "html/cv.pdf" ≠ "" ∧
    ∃ fs2, write_pdf ["html"] "doc" "html/cv.pdf" = .ok (fs2, "html/cv.pdf", "doc") ∧
      dirname "html/cv.pdf" ∈ fs2 ∧
      (dirname "html/cv.pdf" ∈ ["html"] → fs2 = ["html"]) :=
  ⟨by decide, C8_parent_directory ["html"] "doc" "html/cv.pdf" (by decide)⟩

/-- Updating one key of an association list leaves every other key's
binding unchanged. -/
theorem alookup_setKey_ne (kvs : List (String × Yaml)) (key k : String)
    (v : Yaml) (h : k ≠ key) :
    alookup (setKey kvs key v) k = alookup kvs k := by
  induction kvs with
  | nil =>
      simp only [setKey, alookup]
      rw [if_neg (fun hc => h hc.symm)]
  | cons p rest ih =>
      obtain ⟨pk, pv⟩ := p
      simp only [setKey]
      by_cases hpk : pk = key
      · rw [if_pos hpk]
        simp only [alookup]
        rw [if_neg (fun hc => h hc.symm),
          if_neg (by rw [hpk]; exact fun hc => h hc.symm)]
      · rw [if_neg hpk]
        simp only [alookup]
        by_cases hpkk : pk = k
        · rw [if_pos hpkk, if_pos hpkk]
        · rw [if_neg hpkk, if_neg hpkk]
          exact ih

/-- C9: after loading, the record tree is never mutated except for the
single enrichment write attaching a list under `projects`: the tree
that reaches rendering is the loaded tree when no enrichment happened,
or the loaded tree with only the `projects` binding replaced; every
other top-level key maps to its original (unchanged) value. -/
theorem C9_no_mutation :
    ∀ (kvs : List (String × Yaml)) (fetch : Yaml → Option String → List Yaml)
      (token : Option String) (d2 : Yaml) (n : Nat),
      enrichStep (.map kvs) fetch token = .ok (d2, n) →
      (n = 0 ∨ n = 1) ∧
      (n = 0 → d2 = .map kvs) ∧
      (n = 1 → ∃ gv, d2 = .map (setKey kvs "projects" (.list (fetch gv token)))) ∧
      (∃ kvs2, d2 = .map kvs2 ∧
        ∀ k, k ≠ "projects" → alookup kvs2 k = alookup kvs k) ∧
      (∀ (s0 : String) (parse : String → Except YamlErr Yaml) (fs : List String)
         (r : MainOk),
        parse s0 = .ok (.map kvs) →
        (mainModel (.content s0) parse fetch token fs).2 = .ok r →
        r.dataAfter = d2) := by
  intro kvs fetch token d2 n h
  have hmainlink : ∀ (s0 : String) (parse : String → Except YamlErr Yaml)
      (fs : List String) (r : MainOk),
      parse s0 = .ok (.map kvs) →
      (mainModel (.content s0) parse fetch token fs).2 = .ok r →
      r.dataAfter = d2 := by
    intro s0 parse fs r hparse hmain
    unfold mainModel at hmain
    rw [show load_data (.content s0) parse = .ok (.map kvs) from by
      simp [load_data, hparse]] at hmain
    dsimp only at hmain
    rw [h] at hmain
    dsimp only at hmain
    cases hg : generate_html d2 with
    | error e =>
        simp only [hg] at hmain
        exact Except.noConfusion hmain
    | ok html =>
        cases hw : write_pdf fs html "html/cv.pdf" with
        | error e =>
            simp only [hg, hw] at hmain
            exact Except.noConfusion hmain
        | ok t =>
            obtain ⟨fs2, p, doc⟩ := t
            simp only [hg, hw] at hmain
            injection hmain with h2
            rw [← h2]
  unfold enrichStep at h
  simp only [bind_eq_ok] at h
  obtain ⟨cond, hcond, h⟩ := h
  cases cond with
  | false =>
      rw [if_neg (by simp)] at h
      simp only [pure_eq_ok, Except.ok.injEq, Prod.mk.injEq] at h
      obtain ⟨hd2, hn⟩ := h
      refine ⟨Or.inl hn.symm, fun _ => hd2.symm, fun h1 => ?_, ?_, hmainlink⟩
      · rw [← hn] at h1; cases h1
      · exact ⟨kvs, hd2.symm, fun k _ => rfl⟩
  | true =>
      rw [if_pos rfl] at h
      simp only [bind_eq_ok, pure_eq_ok, Except.ok.injEq, Prod.mk.injEq] at h
      obtain ⟨pi0, hpi, social, hsoc, gv, hgv, hd2, hn⟩ := h
      refine ⟨Or.inr hn.symm, fun h0 => ?_, fun _ => ⟨gv, ?_⟩, ?_, hmainlink⟩
      · rw [← hn] at h0; cases h0
      · rw [← hd2]; rfl
      · refine ⟨setKey kvs "projects" (.list (fetch gv token)), ?_, ?_⟩
        · rw [← hd2]; rfl
        · intro k hk
          exact alookup_setKey_ne kvs "projects" k _ hk

/-- A fetcher returning no projects, for witnesses. -/
def fetchW : Yaml → Option String → List Yaml := fun _ _ => []

/-- The tree `kvs3` after its single enrichment write. -/
def d2W : Yaml := .map (setKey kvs3 "projects" (.list []))

/-- C9 witness: the frame theorem applied at the concrete enrichment
run on `kvs3`. -/
theorem C9_no_mutation_witness :
    enrichStep (.map kvs3) fetchW none = .ok (d2W, 1) ∧
    ((1 = 0 ∨ 1 = 1) ∧
     (1 = 0 → d2W = .map kvs3) ∧
     (1 = 1 → ∃ gv, d2W = .map (setKey kvs3 "projects" (.list (fetchW gv none)))) ∧
     (∃ kvs2, d2W = .map kvs2 ∧
       ∀ k, k ≠ "projects" → alookup kvs2 k = alookup kvs3 k) ∧
     (∀ (s0 : String) (parse : String → Except YamlErr Yaml) (fs : List String)
        (r : MainOk),
       parse s0 = .ok (.map kvs3) →
       (mainModel (.content s0) parse fetchW none fs).2 = .ok r →
       r.dataAfter = d2W)) :=
  ⟨rfl, C9_no_mutation kvs3 fetchW none d2W 1 rfl⟩

/-- C10 counterexample: for an input file parsing to `None` (an empty
YAML file), the pipeline fails in `main`'s enrichment check — calling
`.get` on a non-dict raises `AttributeError` — before `generate_html`
is ever reached, so the failure is not a `TypeError` raised while
splatting inside `generate_html`. -/
theorem C10_counterexample :
    parseNull "" = .ok .null ∧
    (mainModel (.content "") parseNull fetchW none []).2 =
      .error (.enrich .attributeError) :=
  ⟨rfl, rfl⟩

/-- C10 (amended): for an input file that parses to a non-mapping, the
pipeline does not render and produces no output: `main` raises an
`AttributeError` at the enrichment check (`data.get`) before
`generate_html` is reached; `generate_html` itself, applied directly to
a non-mapping, raises a `TypeError` when splatting it into the
template. -/
theorem C10_non_mapping :
    (∀ (y : Yaml), (∀ kvs, y ≠ .map kvs) →
      ∀ (s0 : String) (parse : String → Except YamlErr Yaml)
        (fetch : Yaml → Option String → List Yaml) (token : Option String)
        (fs : List String),
        parse s0 = .ok y →
        (mainModel (.content s0) parse fetch token fs).1 = 0 ∧
        (mainModel (.content s0) parse fetch token fs).2 =
          .error (.enrich .attributeError)) ∧
    (∀ (y : Yaml), (∀ kvs, y ≠ .map kvs) →
      generate_html y = .error .typeError) := by
  constructor
  · intro y hy s0 parse fetch token fs hparse
    have hload : load_data (.content s0) parse = .ok y := by
      simp [load_data, hparse]
    have hstep : enrichStep y fetch token = .error .attributeError := by
      cases y with
      | map kvs => exact absurd rfl (hy kvs)
      | null => rfl
      | bool b => rfl
      | int n => rfl
      | str s => rfl
      | list l => rfl
    constructor <;> (unfold mainModel; rw [hload]; dsimp only; rw [hstep])
  · intro y hy
    cases y with
    | map kvs => exact absurd rfl (hy kvs)
    | null => rfl
    | bool b => rfl
    | int n => rfl
    | str s => rfl
    | list l => rfl

/-- C10 witness: the amended theorem applied at the `None` tree. -/
theorem C10_non_mapping_witness :
    ((mainModel (.content "") parseNull fetchW none []).1 = 0 ∧
     (mainModel (.content "") parseNull fetchW none []).2 =
       .error (.enrich .attributeError)) ∧
    generate_html .null = .error .typeError :=
  ⟨C10_non_mapping.1 .null (fun _ h => Yaml.noConfusion h) "" parseNull
     fetchW none [] rfl,
   C10_non_mapping.2 .null (fun _ h => Yaml.noConfusion h)⟩
